import Mathlib

/-!
# Verification of the Stock Ledger & Requirement Projection Engine

A shallow embedding of the engine implemented in `app.py` (Flask + SQLAlchemy
over Postgres), together with proofs about it.

Modelling conventions:

* Database tables become Lean lists of structures; surrogate primary keys are
  `Nat` counters carried in the state (`nextItemId`, `nextStockId`,
  `nextAsigId`) and are assigned exactly as Postgres serials would be
  (fresh id on insert).
* SQLAlchemy's `query(...).filter_by(...).first()` / `Session.get` become
  `List.find?` (first match in insertion order); in-place mutation of the
  returned row becomes `updateFirst`; `delete` of a row fetched by primary key
  becomes `eraseFirst`.
* `Integer` columns become `Int` (the Python code performs `int(...)`
  conversions on form input and no range checks).
* Python strings become `String`; Python's `.strip()` becomes `pyStrip`.
* Each request handler becomes a pure function `AppState → args → Except Err
  AppState`.  An early `return "...", 4xx` in the handler (before `commit`)
  becomes `Except.error`: the session is closed without committing, so the
  database is unchanged.  A `commit` that violates a declared constraint
  (the `ForeignKey(..., nullable=False)` columns of `stock.almacen_id`,
  `asignacion_items.item_id` and `asignacion_items.material_id`; Postgres
  enforces these on INSERT of a referencing row, not on an UPDATE that leaves
  the key columns untouched) raises `IntegrityError`, the transaction is
  rolled back and nothing is persisted: this also becomes `Except.error`.
-/

namespace BridgesOps

/-- Error outcomes of a request handler.  `notFound` is an explicit 404
return; `categoryConflict` is the explicit 400 return of `agregar`;
`fkViolation` is an `IntegrityError` raised at commit by a declared
foreign-key constraint (the transaction rolls back). -/
inductive Err where
  | notFound : Err
  | categoryConflict : Err
  | fkViolation : Err
deriving DecidableEq, Repr

/-- Row of table `inventario` (class `Inventario`). -/
structure Inventario where
  id : Nat
  nombre : String
  cantidad : Int          -- legacy column, kept for schema fidelity
  categoria : String
  consumo_estimado : Int
deriving DecidableEq, Repr

/-- Row of table `almacenes` (class `Almacen`). -/
structure Almacen where
  id : Nat
  nombre : String
deriving DecidableEq, Repr

/-- Row of table `stock` (class `Stock`); unique constraint on
`(item_id, almacen_id)`. -/
structure Stock where
  id : Nat
  item_id : Nat
  almacen_id : Nat
  cantidad : Int
deriving DecidableEq, Repr

/-- Row of table `materiales` (class `Material`). -/
structure Material where
  id : Nat
  nombre : String
  area_id : Nat
deriving DecidableEq, Repr

/-- Row of table `asignacion_items` (class `AsignacionItem`). -/
structure AsignacionItem where
  id : Nat
  material_id : Nat
  item_id : Nat
  cantidad_asignada : Int
deriving DecidableEq, Repr

/-- The database state seen by the engine. -/
structure AppState where
  inventario : List Inventario
  almacenes : List Almacen
  stocks : List Stock
  materiales : List Material
  asignaciones : List AsignacionItem
  nextItemId : Nat
  nextStockId : Nat
  nextAsigId : Nat
deriving DecidableEq, Repr

/-- Python's `str.strip()`: drop whitespace from both ends of the string
(defined by structural recursion over the character list so that concrete
instances compute). -/
def pyStrip (s : String) : String :=
  ⟨((s.data.dropWhile Char.isWhitespace).reverse.dropWhile Char.isWhitespace).reverse⟩

/-- Replace the first element satisfying `p` by its image under `f`
(models fetching a row with `.first()` / `Session.get` and mutating it). -/
def updateFirst (p : α → Bool) (f : α → α) : List α → List α
  | [] => []
  | x :: xs => if p x then f x :: xs else x :: updateFirst p f xs

/-- Remove the first element satisfying `p` (models `Session.delete` of a
row fetched by primary key). -/
def eraseFirst (p : α → Bool) : List α → List α
  | [] => []
  | x :: xs => if p x then xs else x :: eraseFirst p xs

/-- `_semaforo(stock, estimado)` from `app.py`: the three-tier adequacy
signal. -/
def _semaforo (stock : Int) (estimado : Int) : String :=
  if stock ≥ estimado then "VERDE"
  else if stock > 0 ∧ stock < estimado then "AMARILLO"
  else "ROJO"

/-- `_stock_consolidado_por_item(s)` from `app.py`, as a total function of the
item id: the dict it builds maps `item_id` to the running sum of `cantidad`
over all `Stock` rows with that `item_id` (`totals.get(item_id, 0) + (cant or
0)`; `cant or 0 = cant` on integers), and callers read it with
`.get(item_id, 0)`, so an absent key is `0`, which is also the value the sum
below takes when the item has no rows. -/
def _stock_consolidado_por_item (s : AppState) (item_id : Nat) : Int :=
  ((s.stocks.filter (fun st => st.item_id == item_id)).map (·.cantidad)).sum

/-- The per-warehouse `stock_map` built by the `index` route
(`{item_id: (cant or 0) for item_id, cant in rows}` over the rows with the
given `almacen_id`), as a total function of the item id: a dict comprehension
keeps the LAST row for a repeated key, and callers treat an absent key as
zero. -/
def stock_map_almacen (s : AppState) (almacen_id : Nat) (item_id : Nat) : Int :=
  (((s.stocks.filter (fun st => st.almacen_id == almacen_id && st.item_id == item_id)).map
    (·.cantidad)).getLast?).getD 0

/-- Second half of the `agregar` handler, from the `Stock` lookup to the
commit: locate the `(item_id, almacen_mov_id)` stock row and add `cantidad`
to it, or insert a fresh row with that quantity.  Committing a freshly
inserted `Stock` row checks its `almacen_id` foreign key against the
`almacenes` table (an UPDATE of `cantidad` alone does not re-check it);
a violation raises and rolls back. -/
def agregarStock (s : AppState) (item_id : Nat) (cantidad : Int)
    (almacen_mov_id : Nat) : Except Err AppState :=
  match s.stocks.find? (fun st => st.item_id == item_id && st.almacen_id == almacen_mov_id) with
  | some _ =>
      let stocks' := updateFirst
        (fun st => st.item_id == item_id && st.almacen_id == almacen_mov_id)
        (fun st => { st with cantidad := st.cantidad + cantidad }) s.stocks
      Except.ok { s with stocks := stocks' }
  | none =>
      if s.almacenes.any (fun a => a.id == almacen_mov_id) then
        Except.ok { s with
          stocks := s.stocks ++ [⟨s.nextStockId, item_id, almacen_mov_id, cantidad⟩],
          nextStockId := s.nextStockId + 1 }
      else Except.error Err.fkViolation

/-- The effective category used by the `agregar` handler:
`categoria = (request.form.get("categoria") or "").strip()`, and a blank
result falls back to `"Sin categoría"`.  `categoria_form` is `none` when
the form has no `categoria` field (`request.form.get` returning `None`,
turned into `""` by `or ""`). -/
def catEfectiva (categoria_form : Option String) : String :=
  let categoria0 := pyStrip (categoria_form.getD "")
  if categoria0 = "" then "Sin categoría" else categoria0

/-- The `agregar` handler ("receive"): `nombre` and `categoria` are
stripped, a missing or blank `categoria` falls back to `"Sin categoría"`
(`catEfectiva`); an existing item under a different category is a 400
error before any mutation; a missing item is created with the given
category and zero demand (`consumo_estimado` defaults to 0); then the
stock row is located or created (`agregarStock`). -/
def agregar (s : AppState) (nombre_form : String) (cantidad : Int)
    (categoria_form : Option String) (almacen_mov_id : Nat) : Except Err AppState :=
  let nombre := pyStrip nombre_form
  let categoria := catEfectiva categoria_form
  match s.inventario.find? (fun it => it.nombre == nombre) with
  | some item =>
      if item.categoria ≠ categoria then Except.error Err.categoryConflict
      else agregarStock s item.id cantidad almacen_mov_id
  | none =>
      agregarStock
        { s with
          inventario := s.inventario ++ [⟨s.nextItemId, nombre, 0, categoria, 0⟩],
          nextItemId := s.nextItemId + 1 }
        s.nextItemId cantidad almacen_mov_id

/-- The `asignar_items` handler ("allocate"): locate the allocation row for
`(material_id, item_id)` and add `cantidad_asignada` to it, or insert a
fresh row with that quantity; then, if the item exists, add
`cantidad_asignada` to its `consumo_estimado` (`x or 0 = x` on integers).
No validation is performed on `cantidad_asignada`.  Committing a freshly
inserted `AsignacionItem` row checks its `item_id` and `material_id`
foreign keys (an UPDATE of `cantidad_asignada` alone does not re-check
them); a violation raises, and the handler's `except` clause rolls the
whole transaction back. -/
def asignar_items (s : AppState) (material_id : Nat) (item_id : Nat)
    (cantidad_asignada : Int) : Except Err AppState :=
  let demandUpd := updateFirst (fun it => it.id == item_id)
    (fun it => { it with consumo_estimado := it.consumo_estimado + cantidad_asignada })
  match s.asignaciones.find? (fun a => a.material_id == material_id && a.item_id == item_id) with
  | some _ =>
      let asigs' := updateFirst
        (fun a => a.material_id == material_id && a.item_id == item_id)
        (fun a => { a with cantidad_asignada := a.cantidad_asignada + cantidad_asignada })
        s.asignaciones
      Except.ok { s with asignaciones := asigs', inventario := demandUpd s.inventario }
  | none =>
      if s.inventario.any (fun it => it.id == item_id) &&
         s.materiales.any (fun m => m.id == material_id) then
        Except.ok { s with
          asignaciones := s.asignaciones ++ [⟨s.nextAsigId, material_id, item_id, cantidad_asignada⟩],
          nextAsigId := s.nextAsigId + 1,
          inventario := demandUpd s.inventario }
      else Except.error Err.fkViolation

/-- The `eliminar_asignacion` handler ("deallocate"): 404 if the allocation
id does not exist; otherwise, if the referenced item exists, set its
`consumo_estimado` to `max(0, consumo_estimado - cantidad_asignada)`
(clamped at zero), then delete the allocation row. -/
def eliminar_asignacion (s : AppState) (asignacion_id : Nat) : Except Err AppState :=
  match s.asignaciones.find? (fun a => a.id == asignacion_id) with
  | none => Except.error Err.notFound
  | some asignacion =>
      let inv' := updateFirst (fun it => it.id == asignacion.item_id)
        (fun it => { it with
          consumo_estimado := max 0 (it.consumo_estimado - asignacion.cantidad_asignada) })
        s.inventario
      Except.ok { s with
        inventario := inv',
        asignaciones := eraseFirst (fun a => a.id == asignacion_id) s.asignaciones }

/-- One row of the list rendered by the `requerimientos` route. -/
structure ReqRow where
  id : Nat
  nombre : String
  categoria : String
  stock : Int
  estimado : Int
  faltante : Int
  semaforo : String
deriving DecidableEq, Repr

/-- The `prioridad` dict of the `requerimientos` handler
(`{"ROJO": 0, "AMARILLO": 1, "VERDE": 2}`); it is only ever applied to
outputs of `_semaforo`, so the catch-all branch is unreachable there. -/
def prioridad : String → Nat
  | "ROJO" => 0
  | "AMARILLO" => 1
  | "VERDE" => 2
  | _ => 3

/-- The sort key comparison of the `requerimientos` handler:
`reqs.sort(key=lambda r: (prioridad[r.semaforo], -r.faltante))` sorts
ascending by the lexicographic order on that pair. -/
def reqLe (a b : ReqRow) : Bool :=
  prioridad a.semaforo < prioridad b.semaforo ||
    (prioridad a.semaforo == prioridad b.semaforo && b.faltante ≤ a.faltante)

/-- The `requerimientos` handler ("requirement_report"): for every item,
`estimado = consumo_estimado or 0` (identity on integers),
`stock = total_map.get(id, 0)`, `faltante = max(0, estimado - stock)`,
`semaforo = _semaforo(stock, estimado)`; a row is emitted only when
`estimado > 0 or faltante > 0`; then the rows are stable-sorted by
`(prioridad, -faltante)`. -/
def requerimientos (s : AppState) : List ReqRow :=
  let reqs := s.inventario.filterMap (fun it =>
    let estimado := it.consumo_estimado
    let stock := _stock_consolidado_por_item s it.id
    let faltante := max 0 (estimado - stock)
    let color := _semaforo stock estimado
    if estimado > 0 ∨ faltante > 0 then
      some ⟨it.id, it.nombre, it.categoria, stock, estimado, faltante, color⟩
    else none)
  reqs.mergeSort reqLe

/-- The quantity of the (unique) `Stock` row for `(item_id, almacen_id)`,
read the way the handlers read it (`filter_by(...).first()`), with `0` when
no row exists. -/
def stockCantidad (s : AppState) (item_id : Nat) (almacen_id : Nat) : Int :=
  ((s.stocks.find? (fun st => st.item_id == item_id && st.almacen_id == almacen_id)).map
    (·.cantidad)).getD 0

/-- The stock held at a warehouse for the item of a given (already stripped)
name: `0` when no item of that name, or no row for the pair, exists. -/
def stockPorNombre (s : AppState) (nombre : String) (almacen_id : Nat) : Int :=
  match s.inventario.find? (fun it => it.nombre == nombre) with
  | some it => stockCantidad s it.id almacen_id
  | none => 0

/-- A sequence of `agregar` requests naming the same form fields, one per
quantity in the list, stopping at the first failure. -/
def agregarMany (nombre_form : String) (categoria_form : Option String)
    (almacen_mov_id : Nat) : AppState → List Int → Except Err AppState
  | s, [] => Except.ok s
  | s, q :: qs =>
      match agregar s nombre_form q categoria_form almacen_mov_id with
      | Except.ok s' => agregarMany nombre_form categoria_form almacen_mov_id s' qs
      | Except.error e => Except.error e

/-- Well-formedness of the surrogate-key counter: every item id and every
stock row's `item_id` is below `nextItemId` (Postgres serials only ever hand
out fresh ids). -/
def WF (s : AppState) : Prop :=
  (∀ it ∈ s.inventario, it.id < s.nextItemId) ∧
    (∀ st ∈ s.stocks, st.item_id < s.nextItemId)

/-- One external call against the Allocation Ledger. -/
inductive LedgerOp where
  | alloc (material_id : Nat) (item_id : Nat) (cantidad_asignada : Int)
  | dealloc (asignacion_id : Nat)
deriving DecidableEq, Repr

/-- Execute one call: a failed request rolls back and leaves the database
unchanged (the web server keeps serving further requests). -/
def applyOp (s : AppState) : LedgerOp → AppState
  | .alloc m i q =>
      match asignar_items s m i q with
      | Except.ok s' => s'
      | Except.error _ => s
  | .dealloc aid =>
      match eliminar_asignacion s aid with
      | Except.ok s' => s'
      | Except.error _ => s

/-- Execute a sequence of allocate/deallocate calls. -/
def runOps (s : AppState) : List LedgerOp → AppState
  | [] => s
  | op :: ops => runOps (applyOp s op) ops

/-- An allocate call with a non-negative quantity (deallocate calls are
unrestricted). -/
def opNonneg : LedgerOp → Prop
  | .alloc _ _ q => 0 ≤ q
  | .dealloc _ => True

/-- Sum of `cantidad_asignada` over the live allocation rows referencing an
item: the right-hand side of the cross-entity demand invariant. -/
def sumAsig (asigs : List AsignacionItem) (item_id : Nat) : Int :=
  ((asigs.filter (fun a => a.item_id == item_id)).map (·.cantidad_asignada)).sum

/-- The cross-entity demand invariant: every item's `consumo_estimado`
equals the sum of `cantidad_asignada` over the allocations referencing it. -/
def demandInv (s : AppState) : Prop :=
  ∀ it ∈ s.inventario, it.consumo_estimado = sumAsig s.asignaciones it.id

/-- A consistent database state: the demand invariant holds, item ids are
distinct (primary key), and allocation quantities are non-negative (the
data model's constraint on `Allocation.quantity`). -/
def Consistent (s : AppState) : Prop :=
  demandInv s ∧ (s.inventario.map (·.id)).Nodup ∧
    ∀ a ∈ s.asignaciones, 0 ≤ a.cantidad_asignada

/-- The spec-side inclusion test of `requirement_report`: include an item
exactly when `estimated_demand > 0` or `shortfall > 0`. -/
def reqQualifies (s : AppState) (it : Inventario) : Bool :=
  decide (0 < it.consumo_estimado) ||
    decide (0 < max 0 (it.consumo_estimado - _stock_consolidado_por_item s it.id))

/-- The spec-side report row for an item: `on_hand` is the consolidated
total (0 if absent), `shortfall = max(0, estimated_demand - on_hand)`,
`status = classify(on_hand, estimated_demand)`. -/
def mkReqRow (s : AppState) (it : Inventario) : ReqRow :=
  { id := it.id
    nombre := it.nombre
    categoria := it.categoria
    stock := _stock_consolidado_por_item s it.id
    estimado := it.consumo_estimado
    faltante := max 0 (it.consumo_estimado - _stock_consolidado_por_item s it.id)
    semaforo := _semaforo (_stock_consolidado_por_item s it.id) it.consumo_estimado }

/-- The database state right after provisioning (`seed_almacenes` with an
empty catalog; only the principal warehouse is kept in this fixture). -/
def stateSeed : AppState :=
  { inventario := []
    almacenes := [⟨1, "Almacén PNSR"⟩]
    stocks := []
    materiales := []
    asignaciones := []
    nextItemId := 1
    nextStockId := 1
    nextAsigId := 1 }

/-- A consistent sample state: item "Rope" (id 1, zero demand), two
materials, no allocations. -/
def stateC1 : AppState :=
  { inventario := [⟨1, "Rope", 0, "Gear", 0⟩]
    almacenes := [⟨1, "Almacén PNSR"⟩]
    stocks := []
    materiales := [⟨1, "Carpas", 1⟩, ⟨2, "Cocina", 1⟩]
    asignaciones := []
    nextItemId := 2
    nextStockId := 1
    nextAsigId := 1 }

/-- The state reached from `stateSeed` by `receive("Gloves","Consumible",1,10)`
followed by `receive("Gloves","Consumible",1,5)`. -/
def stateC7After : AppState :=
  { inventario := [⟨1, "Gloves", 0, "Consumible", 0⟩]
    almacenes := [⟨1, "Almacén PNSR"⟩]
    stocks := [⟨1, 1, 1, 15⟩]
    materiales := []
    asignaciones := []
    nextItemId := 2
    nextStockId := 2
    nextAsigId := 1 }

/-- `opNonneg` is decidable, so concrete op sequences can be checked by
`decide`. -/
instance : DecidablePred opNonneg := fun op =>
  match op with
  | .alloc _ _ q => inferInstanceAs (Decidable (0 ≤ q))
  | .dealloc _ => inferInstanceAs (Decidable True)

instance (s : AppState) : Decidable (WF s) := by
  unfold WF
  infer_instance

instance (s : AppState) : Decidable (demandInv s) := by
  unfold demandInv
  infer_instance

instance (s : AppState) : Decidable (Consistent s) := by
  unfold Consistent
  infer_instance

instance {ε α : Type} [DecidableEq ε] [DecidableEq α] :
    DecidableEq (Except ε α) := fun a b =>
  match a, b with
  | .error e, .error f =>
      if h : e = f then isTrue (by rw [h])
      else isFalse fun hc => h (Except.error.inj hc)
  | .ok x, .ok y =>
      if h : x = y then isTrue (by rw [h])
      else isFalse fun hc => h (Except.ok.inj hc)
  | .error _, .ok _ => isFalse fun hc => Except.noConfusion hc
  | .ok _, .error _ => isFalse fun hc => Except.noConfusion hc

/-- A sample database state: the item "Rope" (id 1) carries demand 3 and a
single live allocation row (id 1) of quantity 5 against material 1. -/
def stateC6 : AppState :=
  { inventario := [⟨1, "Rope", 0, "Gear", 3⟩]
    almacenes := [⟨1, "Almacén PNSR"⟩]
    stocks := []
    materiales := [⟨1, "Cuerdas", 1⟩]
    asignaciones := [⟨1, 1, 1, 5⟩]
    nextItemId := 2
    nextStockId := 1
    nextAsigId := 2 }

/-- The state of Scenario 5 after `receive("Tent","Gear",W1,5)`: one item
"Tent" of category "Gear" with 5 on hand at warehouse 1. -/
def stateC8 : AppState :=
  { inventario := [⟨1, "Tent", 0, "Gear", 0⟩]
    almacenes := [⟨1, "W1"⟩]
    stocks := [⟨1, 1, 1, 5⟩]
    materiales := []
    asignaciones := []
    nextItemId := 2
    nextStockId := 2
    nextAsigId := 1 }

/-- C3: `classify` (`_semaforo`) matches the spec's piecewise definition on
all integer inputs: VERDE (ADEQUATE) exactly when `on_hand ≥
estimated_demand`; AMARILLO (PARTIAL) exactly when `0 < on_hand <
estimated_demand`; ROJO (CRITICAL) exactly when `on_hand ≤ 0` and demand
is not already met (`¬ estimated_demand ≤ on_hand`); and `_semaforo 0 0 =
VERDE` (the degenerate case is ADEQUATE). -/
theorem semaforo_matches_spec (stock estimado : Int) :
    (_semaforo stock estimado = "VERDE" ↔ estimado ≤ stock) ∧
    (_semaforo stock estimado = "AMARILLO" ↔ 0 < stock ∧ stock < estimado) ∧
    (_semaforo stock estimado = "ROJO" ↔ stock ≤ 0 ∧ ¬ estimado ≤ stock) ∧
    _semaforo 0 0 = "VERDE" := by
  have h4 : _semaforo 0 0 = "VERDE" := by unfold _semaforo; norm_num
  refine ⟨?_, ?_, ?_, h4⟩ <;>
    (unfold _semaforo; split_ifs with h1 h2 <;> simp_all)

/-- Decomposition of a successful `find?`: the list splits as
`l₁ ++ a :: l₂` with no match in `l₁`, and `updateFirst`/`eraseFirst`
act exactly on the displayed occurrence of `a`. -/
theorem find?_decomp (p : α → Bool) (f : α → α) (l : List α) (a : α)
    (h : l.find? p = some a) :
    ∃ l₁ l₂, l = l₁ ++ a :: l₂ ∧ (∀ x ∈ l₁, ¬ p x) ∧
      updateFirst p f l = l₁ ++ f a :: l₂ ∧ eraseFirst p l = l₁ ++ l₂ := by
  induction l with
  | nil => simp [List.find?] at h
  | cons x xs ih =>
      by_cases hx : p x
      · rw [List.find?_cons_of_pos _ hx] at h
        obtain rfl : x = a := by injection h
        exact ⟨[], xs, rfl, by simp, by simp [updateFirst, hx], by simp [eraseFirst, hx]⟩
      · rw [List.find?_cons_of_neg _ hx] at h
        obtain ⟨l₁, l₂, h1, h2, h3, h4⟩ := ih h
        refine ⟨x :: l₁, l₂, by simp [h1], ?_, ?_, ?_⟩
        · intro y hy
          rcases List.mem_cons.mp hy with rfl | hy
          · exact hx
          · exact h2 y hy
        · simp [updateFirst, hx, h3]
        · simp [eraseFirst, hx, h4]

/-- `updateFirst` is the identity when nothing matches. -/
theorem updateFirst_of_forall_neg (p : α → Bool) (f : α → α) (l : List α)
    (h : ∀ x ∈ l, ¬ p x) : updateFirst p f l = l := by
  induction l with
  | nil => rfl
  | cons x xs ih =>
      have hx : ¬ p x := h x (List.mem_cons_self x xs)
      simp [updateFirst, hx, ih fun y hy => h y (List.mem_cons_of_mem x hy)]

/-- `sumAsig` distributes over list append. -/
theorem sumAsig_append (l₁ l₂ : List AsignacionItem) (i : Nat) :
    sumAsig (l₁ ++ l₂) i = sumAsig l₁ i + sumAsig l₂ i := by
  simp [sumAsig, List.filter_append]

/-- `sumAsig` over a cons: the head contributes exactly when it references
the item. -/
theorem sumAsig_cons (a : AsignacionItem) (l : List AsignacionItem) (i : Nat) :
    sumAsig (a :: l) i =
      (if a.item_id == i then a.cantidad_asignada else 0) + sumAsig l i := by
  simp only [sumAsig, List.filter_cons]
  split <;> simp

/-- C6: deallocating an existing allocation (from any state, consistent or
not) sets the referenced item's demand to `max 0 (old − quantity)` — in
particular the new demand is never negative — and deletes the allocation
row.  The `countP` hypothesis is the primary-key uniqueness of the
allocation id. -/
theorem eliminar_asignacion_clamp (s : AppState) (asignacion_id : Nat)
    (a : AsignacionItem) (it : Inventario)
    (ha : s.asignaciones.find? (fun x => x.id == asignacion_id) = some a)
    (hone : s.asignaciones.countP (fun x => x.id == asignacion_id) ≤ 1)
    (hit : s.inventario.find? (fun x => x.id == a.item_id) = some it) :
    ∃ s', eliminar_asignacion s asignacion_id = Except.ok s' ∧
      s'.inventario.find? (fun x => x.id == a.item_id) =
        some { it with consumo_estimado := max 0 (it.consumo_estimado - a.cantidad_asignada) } ∧
      0 ≤ max 0 (it.consumo_estimado - a.cantidad_asignada) ∧
      s'.asignaciones.find? (fun x => x.id == asignacion_id) = none := by
  obtain ⟨m₁, m₂, hm, hm1, hmu, hme⟩ :=
    find?_decomp (fun x => x.id == asignacion_id)
      (fun x => x) s.asignaciones a ha
  obtain ⟨i₁, i₂, hi, hi1, hiu, _⟩ :=
    find?_decomp (fun x => x.id == a.item_id)
      (fun x => { x with
        consumo_estimado := max 0 (x.consumo_estimado - a.cantidad_asignada) })
      s.inventario it hit
  refine ⟨_, by rw [eliminar_asignacion, ha], ?_, le_max_left _ _, ?_⟩
  · have hpit : (it.id == a.item_id) = true :=
      List.find?_some (p := fun x : Inventario => x.id == a.item_id) hit
    rw [hiu]
    rw [List.find?_append]
    rw [List.find?_eq_none.mpr hi1]
    simp [hpit]
  · have hpa : (a.id == asignacion_id) = true :=
      List.find?_some (p := fun x : AsignacionItem => x.id == asignacion_id) ha
    rw [hme]
    rw [List.find?_append]
    have hcount : s.asignaciones.countP (fun x => x.id == asignacion_id) =
        m₁.countP (fun x => x.id == asignacion_id) + 1 +
          m₂.countP (fun x => x.id == asignacion_id) := by
      rw [hm]; simp [List.countP_append, List.countP_cons, hpa]; omega
    have h₂ : ∀ x ∈ m₂, ¬ (x.id == asignacion_id) := by
      rw [← List.countP_eq_zero]
      omega
    rw [List.find?_eq_none.mpr hm1, List.find?_eq_none.mpr h₂]
    rfl

/-- Instantiation of `eliminar_asignacion_clamp` on `stateC6`: deleting
allocation 1 (quantity 5) clamps demand 3 to 0 rather than −2. -/
theorem eliminar_asignacion_clamp_witness :
    ∃ s', eliminar_asignacion stateC6 1 = Except.ok s' ∧
      s'.inventario.find? (fun x => x.id == 1) =
        some { (⟨1, "Rope", 0, "Gear", 3⟩ : Inventario) with consumo_estimado := max 0 ((3 : Int) - 5) } ∧
      (0 : Int) ≤ max 0 ((3 : Int) - 5) ∧
      s'.asignaciones.find? (fun x => x.id == 1) = none :=
  eliminar_asignacion_clamp stateC6 1 ⟨1, 1, 1, 5⟩ ⟨1, "Rope", 0, "Gear", 3⟩
    (by decide) (by decide) (by decide)

/-- C8: a receipt naming an existing item under a different (effective)
category fails with the `CategoryConflict` 400 error.  The error return
happens before any row is touched and before `commit`, so the session is
closed with the database unchanged: in the embedding this is the
`Except.error` outcome, which carries no successor state. -/
theorem agregar_category_conflict (s : AppState) (nombre_form : String)
    (cantidad : Int) (categoria_form : Option String) (almacen_mov_id : Nat)
    (it : Inventario)
    (hfind : s.inventario.find? (fun x => x.nombre == pyStrip nombre_form) = some it)
    (hdiff : it.categoria ≠ catEfectiva categoria_form) :
    agregar s nombre_form cantidad categoria_form almacen_mov_id =
      Except.error Err.categoryConflict := by
  simp [agregar, hfind, hdiff]

/-- Scenario 5: after `receive("Tent","Gear",W1,5)` (that is, `stateC8`),
the receipt `receive("Tent","Consumible",W1,1)` fails with
`CategoryConflict` and the stock of "Tent" at warehouse 1 stays 5. -/
theorem agregar_category_conflict_witness :
    agregar stateC8 "Tent" 1 (some "Consumible") 1 =
      Except.error Err.categoryConflict ∧
    stockPorNombre stateC8 "Tent" 1 = 5 :=
  ⟨agregar_category_conflict stateC8 "Tent" 1 (some "Consumible") 1
    ⟨1, "Tent", 0, "Gear", 0⟩ (by decide) (by decide), by decide⟩

/-- C10: a missing or blank `categoria` field is replaced by the fixed
default `"Sin categoría"` before the conflict check: a receipt for a new
name creates the item with category `"Sin categoría"`, and a receipt
without a category for an existing item succeeds only if the stored
category is exactly `"Sin categoría"`, otherwise it is the
`CategoryConflict` error. -/
theorem agregar_default_categoria (s : AppState) (nombre_form : String)
    (cantidad : Int) (categoria_form : Option String) (almacen_mov_id : Nat)
    (hblank : pyStrip (categoria_form.getD "") = "") :
    catEfectiva categoria_form = "Sin categoría" ∧
    (s.inventario.find? (fun x => x.nombre == pyStrip nombre_form) = none →
      ∀ s', agregar s nombre_form cantidad categoria_form almacen_mov_id = Except.ok s' →
        ∃ itNew ∈ s'.inventario, itNew.nombre = pyStrip nombre_form ∧
          itNew.categoria = "Sin categoría") ∧
    ∀ it, s.inventario.find? (fun x => x.nombre == pyStrip nombre_form) = some it →
      ((∃ s', agregar s nombre_form cantidad categoria_form almacen_mov_id = Except.ok s') →
        it.categoria = "Sin categoría") ∧
      (it.categoria ≠ "Sin categoría" →
        agregar s nombre_form cantidad categoria_form almacen_mov_id =
          Except.error Err.categoryConflict) := by
  have hcat : catEfectiva categoria_form = "Sin categoría" := by
    simp [catEfectiva, hblank]
  refine ⟨hcat, ?_, ?_⟩
  · intro hnone s' hok
    simp only [agregar, hnone, hcat] at hok
    unfold agregarStock at hok
    split at hok
    · cases hok
      exact ⟨⟨s.nextItemId, pyStrip nombre_form, 0, "Sin categoría", 0⟩, by simp, rfl, rfl⟩
    · split at hok
      · cases hok
        exact ⟨⟨s.nextItemId, pyStrip nombre_form, 0, "Sin categoría", 0⟩, by simp, rfl, rfl⟩
      · cases hok
  · intro it hfind
    constructor
    · rintro ⟨s', hok⟩
      by_contra hne
      rw [agregar] at hok
      simp only [hfind, hcat] at hok
      rw [if_pos hne] at hok
      cases hok
    · intro hne
      simp [agregar, hfind, hcat, hne]

/-- Instantiation of `agregar_default_categoria`: the blank default is
`"Sin categoría"`, and a category-less receipt for "Tent" (stored
category "Gear") is a `CategoryConflict`. -/
theorem agregar_default_categoria_witness :
    catEfectiva none = "Sin categoría" ∧
    agregar stateC8 "Tent" 1 none 1 = Except.error Err.categoryConflict :=
  have h := agregar_default_categoria stateC8 "Tent" 1 none 1 (by decide)
  ⟨h.1, (h.2.2 ⟨1, "Tent", 0, "Gear", 0⟩ (by decide)).2 (by decide)⟩

/-- `agregarStock` succeeds whenever the destination warehouse exists, for
ANY integer quantity, and adds the quantity to the pair's stock (creating
the row with the quantity when absent). -/
theorem agregarStock_ok (s : AppState) (item_id : Nat) (cantidad : Int) (alm : Nat)
    (halm : ∃ a ∈ s.almacenes, a.id = alm) :
    ∃ s', agregarStock s item_id cantidad alm = Except.ok s' ∧
      stockCantidad s' item_id alm = stockCantidad s item_id alm + cantidad := by
  rcases hfind : s.stocks.find? (fun st => st.item_id == item_id && st.almacen_id == alm)
    with _ | st0
  · have hany : s.almacenes.any (fun a => a.id == alm) = true := by
      rcases halm with ⟨a, ha, rfl⟩
      exact List.any_eq_true.mpr ⟨a, ha, by simp⟩
    have heq : agregarStock s item_id cantidad alm =
        Except.ok { s with stocks := s.stocks ++ [⟨s.nextStockId, item_id, alm, cantidad⟩], nextStockId := s.nextStockId + 1 } := by
      simp [agregarStock, hfind, hany]
    refine ⟨_, heq, ?_⟩
    simp only [stockCantidad, List.find?_append, hfind]
    simp
  · obtain ⟨l₁, l₂, hl, h1, hu, _⟩ := find?_decomp
      (fun st => st.item_id == item_id && st.almacen_id == alm)
      (fun st => { st with cantidad := st.cantidad + cantidad }) s.stocks st0 hfind
    have hp : (st0.item_id == item_id && st0.almacen_id == alm) = true :=
      List.find?_some (p := fun st : Stock => st.item_id == item_id && st.almacen_id == alm) hfind
    have heq : agregarStock s item_id cantidad alm =
        Except.ok { s with stocks := updateFirst (fun st => st.item_id == item_id && st.almacen_id == alm) (fun st => { st with cantidad := st.cantidad + cantidad }) s.stocks } := by
      simp [agregarStock, hfind]
    refine ⟨_, heq, ?_⟩
    simp only [stockCantidad, hu, hfind, List.find?_append, List.find?_eq_none.mpr h1]
    simp [hp]

/-- C9 counterexample: from the freshly provisioned state, the single call
`receive("Tent","Gear",warehouse 1, -3)` is NOT rejected: it succeeds and
creates a StockEntry with quantity −3 (the handler never checks the sign
of `int(request.form["cantidad"])`). -/
theorem agregar_negative_not_rejected :
    ((agregar stateSeed "Tent" (-3) (some "Gear") 1).toOption.map
      (fun s' => stockPorNombre s' "Tent" 1)) = some (-3) := by
  decide

/-- C9 as amended: `agregar` performs no sign validation on the quantity:
whenever the category check passes and the destination warehouse exists,
the call succeeds for every integer quantity — negative included — and the
quantity is added to the pair's StockEntry, so StockEntry quantities can
go negative in reachable states. -/
theorem agregar_no_sign_validation (s : AppState) (nombre_form : String)
    (cantidad : Int) (categoria_form : Option String) (almacen_mov_id : Nat)
    (it : Inventario)
    (hfind : s.inventario.find? (fun x => x.nombre == pyStrip nombre_form) = some it)
    (hcat : it.categoria = catEfectiva categoria_form)
    (halm : ∃ a ∈ s.almacenes, a.id = almacen_mov_id) :
    ∃ s', agregar s nombre_form cantidad categoria_form almacen_mov_id = Except.ok s' ∧
      stockCantidad s' it.id almacen_mov_id =
        stockCantidad s it.id almacen_mov_id + cantidad := by
  obtain ⟨s', hok, hq⟩ := agregarStock_ok s it.id cantidad almacen_mov_id halm
  exact ⟨s', by simp [agregar, hfind, hcat, hok], hq⟩

/-- Instantiation of `agregar_no_sign_validation`: receiving −3 "Tent" into
warehouse 1 of `stateC8` succeeds and lowers the entry from 5 to 2. -/
theorem agregar_no_sign_validation_witness :
    ∃ s', agregar stateC8 "Tent" (-3) (some "Gear") 1 = Except.ok s' ∧
      stockCantidad s' 1 1 = stockCantidad stateC8 1 1 + (-3) :=
  agregar_no_sign_validation stateC8 "Tent" (-3) (some "Gear") 1
    ⟨1, "Tent", 0, "Gear", 0⟩ (by decide) (by decide) ⟨⟨1, "W1"⟩, by decide, rfl⟩

/-- C2 counterexample: on a state where both item 1 and material 1 exist,
`allocate(material 1, item 1, −5)` is NOT rejected with `InvalidQuantity`:
it succeeds, creates an allocation row of −5 and drives the item's
`consumo_estimado` to −5 (the handler performs no quantity validation). -/
theorem asignar_negative_not_rejected :
    ((asignar_items stateC1 1 1 (-5)).toOption.map
      (fun s' => (((s'.inventario.find? (fun it => it.id == 1)).map
        (·.consumo_estimado)).getD 0, sumAsig s'.asignaciones 1))) =
      some (-5, -5) := by
  decide

/-- C2 as amended: `asignar_items` never validates the quantity.  When no
allocation row exists for the pair, a missing item or material makes the
INSERT violate its foreign key at commit, so the call aborts with an
`IntegrityError` (not a typed `NotFound`) and zero side effects; when both
exist — or when a row for the pair already exists — the call succeeds for
every integer quantity, zero and negatives included. -/
theorem asignar_items_no_validation (s : AppState) (material_id item_id : Nat)
    (q : Int) :
    (∀ a, s.asignaciones.find?
        (fun x => x.material_id == material_id && x.item_id == item_id) = some a →
      ∃ s', asignar_items s material_id item_id q = Except.ok s') ∧
    (s.asignaciones.find?
        (fun x => x.material_id == material_id && x.item_id == item_id) = none →
      (((¬ ∃ it ∈ s.inventario, it.id = item_id) ∨
          (¬ ∃ m ∈ s.materiales, m.id = material_id)) →
        asignar_items s material_id item_id q = Except.error Err.fkViolation) ∧
      ((∃ it ∈ s.inventario, it.id = item_id) →
        (∃ m ∈ s.materiales, m.id = material_id) →
          ∃ s', asignar_items s material_id item_id q = Except.ok s')) := by
  refine ⟨?_, fun hnone => ⟨?_, ?_⟩⟩
  · intro a ha
    have heq : asignar_items s material_id item_id q =
        Except.ok { s with asignaciones := updateFirst (fun x => x.material_id == material_id && x.item_id == item_id) (fun x => { x with cantidad_asignada := x.cantidad_asignada + q }) s.asignaciones, inventario := updateFirst (fun x => x.id == item_id) (fun x => { x with consumo_estimado := x.consumo_estimado + q }) s.inventario } := by
      simp [asignar_items, ha]
    exact ⟨_, heq⟩
  · intro hmiss
    have hcond : (s.inventario.any (fun it => it.id == item_id) &&
        s.materiales.any (fun m => m.id == material_id)) = false := by
      rcases hmiss with hmiss | hmiss
      · have : s.inventario.any (fun it => it.id == item_id) = false := by
          rw [List.any_eq_false]
          intro x hx
          simp only [beq_iff_eq]
          exact fun hxe => hmiss ⟨x, hx, hxe⟩
        simp [this]
      · have : s.materiales.any (fun m => m.id == material_id) = false := by
          rw [List.any_eq_false]
          intro x hx
          simp only [beq_iff_eq]
          exact fun hxe => hmiss ⟨x, hx, hxe⟩
        simp [this]
    simp [asignar_items, hnone, hcond]
  · rintro ⟨it, hit, rfl⟩ ⟨m, hm, rfl⟩
    have h1 : s.inventario.any (fun x => x.id == it.id) = true :=
      List.any_eq_true.mpr ⟨it, hit, by simp⟩
    have h2 : s.materiales.any (fun x => x.id == m.id) = true :=
      List.any_eq_true.mpr ⟨m, hm, by simp⟩
    have heq : asignar_items s m.id it.id q =
        Except.ok { s with asignaciones := s.asignaciones ++ [⟨s.nextAsigId, m.id, it.id, q⟩], nextAsigId := s.nextAsigId + 1, inventario := updateFirst (fun x => x.id == it.id) (fun x => { x with consumo_estimado := x.consumo_estimado + q }) s.inventario } := by
      simp [asignar_items, hnone, h1, h2]
    exact ⟨_, heq⟩

/-- Instantiation of `asignar_items_no_validation`: allocating quantity 0
of item 1 to material 1 in `stateC1` succeeds (the spec would demand an
`InvalidQuantity` rejection here). -/
theorem asignar_items_no_validation_witness :
    ∃ s', asignar_items stateC1 1 1 0 = Except.ok s' :=
  ((asignar_items_no_validation stateC1 1 1 0).2 (by decide)).2
    (by decide) (by decide)

/-- What a successful `agregarStock` did: it added the quantity to the
pair's stock, touched neither the catalog nor the id counter, and every
stock row it produced either concerns the given item or was already
there. -/
theorem agregarStock_ok_elim (s : AppState) (item_id : Nat) (cantidad : Int)
    (alm : Nat) (s' : AppState)
    (hok : agregarStock s item_id cantidad alm = Except.ok s') :
    stockCantidad s' item_id alm = stockCantidad s item_id alm + cantidad ∧
    s'.inventario = s.inventario ∧ s'.nextItemId = s.nextItemId ∧
    ∀ st ∈ s'.stocks, st.item_id = item_id ∨ st ∈ s.stocks := by
  unfold agregarStock at hok
  rcases hfind : s.stocks.find? (fun st => st.item_id == item_id && st.almacen_id == alm)
    with _ | st0
  · simp only [hfind] at hok
    split at hok
    · injection hok with h
      subst h
      refine ⟨?_, rfl, rfl, ?_⟩
      · simp only [stockCantidad, List.find?_append, hfind]
        simp
      · intro st hst
        simp only [List.mem_append, List.mem_singleton] at hst
        rcases hst with h | rfl
        · exact Or.inr h
        · exact Or.inl rfl
    · cases hok
  · simp only [hfind] at hok
    injection hok with h
    subst h
    obtain ⟨l₁, l₂, hl, h1, hu, _⟩ := find?_decomp
      (fun st => st.item_id == item_id && st.almacen_id == alm)
      (fun st => { st with cantidad := st.cantidad + cantidad }) s.stocks st0 hfind
    have hp : (st0.item_id == item_id && st0.almacen_id == alm) = true :=
      List.find?_some (p := fun st : Stock => st.item_id == item_id && st.almacen_id == alm) hfind
    refine ⟨?_, rfl, rfl, ?_⟩
    · simp only [stockCantidad, hu, hfind, List.find?_append, List.find?_eq_none.mpr h1]
      simp [hp]
    · intro st hst
      simp only [hu, List.mem_append, List.mem_cons] at hst
      rcases hst with h | h | h
      · exact Or.inr (by rw [hl]; exact List.mem_append_left _ h)
      · subst h
        simp only [Bool.and_eq_true, beq_iff_eq] at hp
        exact Or.inl hp.1
      · exact Or.inr (by rw [hl]; exact List.mem_append_right _ (List.mem_cons_of_mem _ h))

/-- One successful `agregar` adds its quantity to the stock of the named
(stripped) item at the destination warehouse, and preserves
well-formedness of the id counter. -/
theorem agregar_step (s : AppState) (nombre_form : String) (q : Int)
    (categoria_form : Option String) (alm : Nat) (s' : AppState)
    (hwf : WF s) (hok : agregar s nombre_form q categoria_form alm = Except.ok s') :
    stockPorNombre s' (pyStrip nombre_form) alm =
      stockPorNombre s (pyStrip nombre_form) alm + q ∧ WF s' := by
  unfold agregar at hok
  rcases hfind : s.inventario.find? (fun x => x.nombre == pyStrip nombre_form)
    with _ | item
  · simp only [hfind] at hok
    obtain ⟨hq, hinv, hnext, hmem⟩ := agregarStock_ok_elim _ _ _ _ _ hok
    have hstocks0 : stockCantidad
        { s with inventario := s.inventario ++ [⟨s.nextItemId, pyStrip nombre_form, 0, catEfectiva categoria_form, 0⟩], nextItemId := s.nextItemId + 1 }
        s.nextItemId alm = 0 := by
      have hno : s.stocks.find?
          (fun st => st.item_id == s.nextItemId && st.almacen_id == alm) = none := by
        rw [List.find?_eq_none]
        intro st hst
        have := hwf.2 st hst
        simp only [Bool.and_eq_true, beq_iff_eq, not_and]
        intro h1
        omega
      simp [stockCantidad, hno]
    constructor
    · have hfind' : s'.inventario.find? (fun x => x.nombre == pyStrip nombre_form) =
          some ⟨s.nextItemId, pyStrip nombre_form, 0, catEfectiva categoria_form, 0⟩ := by
        rw [hinv]
        show (s.inventario ++ [(⟨s.nextItemId, pyStrip nombre_form, 0, catEfectiva categoria_form, 0⟩ : Inventario)]).find? _ = _
        rw [List.find?_append, hfind]
        simp
      simp only [stockPorNombre, hfind', hfind]
      rw [hq, hstocks0]
    · constructor
      · intro it hit
        rw [hinv] at hit
        rw [hnext]
        show it.id < s.nextItemId + 1
        simp only [List.mem_append, List.mem_singleton] at hit
        rcases hit with h | rfl
        · have := hwf.1 it h
          omega
        · show s.nextItemId < s.nextItemId + 1
          omega
      · intro st hst
        rw [hnext]
        show st.item_id < s.nextItemId + 1
        rcases hmem st hst with h | h
        · omega
        · have := hwf.2 st h
          omega
  · simp only [hfind] at hok
    split at hok
    · cases hok
    · obtain ⟨hq, hinv, hnext, hmem⟩ := agregarStock_ok_elim _ _ _ _ _ hok
      have hitem : item ∈ s.inventario :=
        List.mem_of_find?_eq_some hfind
      constructor
      · simp only [stockPorNombre, hinv, hfind]
        exact hq
      · constructor
        · intro it hit
          rw [hinv] at hit
          rw [hnext]
          exact hwf.1 it hit
        · intro st hst
          rw [hnext]
          rcases hmem st hst with h | h
          · rw [h]
            exact hwf.1 item hitem
          · exact hwf.2 st h

/-- Folding successful receives accumulates: the stock of the named item
at the warehouse grows by the sum of the received quantities. -/
theorem agregarMany_sum (nombre_form : String) (categoria_form : Option String)
    (alm : Nat) : ∀ (qs : List Int) (s s' : AppState), WF s →
    agregarMany nombre_form categoria_form alm s qs = Except.ok s' →
    stockPorNombre s' (pyStrip nombre_form) alm =
      stockPorNombre s (pyStrip nombre_form) alm + qs.sum := by
  intro qs
  induction qs with
  | nil =>
      intro s s' _ hok
      injection hok with h
      subst h
      simp
  | cons q qs ih =>
      intro s s' hwf hok
      unfold agregarMany at hok
      rcases hstep : agregar s nombre_form q categoria_form alm with e | s₁
      · rw [hstep] at hok
        cases hok
      · rw [hstep] at hok
        obtain ⟨hq, hwf₁⟩ := agregar_step s nombre_form q categoria_form alm s₁ hwf hstep
        rw [ih s₁ s' hwf₁ hok, hq, List.sum_cons]
        ring

/-- C7: for every sequence of successful `receive` calls naming the same
(item name, warehouse) pair, starting from a well-formed state with no
stock for that pair, the final StockEntry quantity equals the sum of all
the received quantities: the first call creates the entry with its
quantity and later calls add to it, none overwrites. -/
theorem receive_accumulation (s : AppState) (nombre_form : String)
    (categoria_form : Option String) (alm : Nat) (qs : List Int) (s' : AppState)
    (hwf : WF s)
    (hnoentry : stockPorNombre s (pyStrip nombre_form) alm = 0)
    (hok : agregarMany nombre_form categoria_form alm s qs = Except.ok s') :
    stockPorNombre s' (pyStrip nombre_form) alm = qs.sum := by
  rw [agregarMany_sum nombre_form categoria_form alm qs s s' hwf hok, hnoentry,
    zero_add]

/-- Instantiation of `receive_accumulation`: two receives of "Gloves"
(10 then 5) into warehouse 1 of the seeded state leave the entry at 15. -/
theorem receive_accumulation_witness :
    stockPorNombre stateC7After (pyStrip "Gloves") 1 = ([10, 5] : List Int).sum :=
  receive_accumulation stateSeed "Gloves" (some "Consumible") 1 [10, 5]
    stateC7After (by decide) (by decide) (by decide)

/-- Under the `(item_id, almacen_id)` uniqueness constraint of the `stock`
table, at most one row matches a given pair. -/
theorem length_filter_le_one (l : List Stock) (w i : Nat)
    (hpair : l.Pairwise (fun a b => ¬(a.item_id = b.item_id ∧ a.almacen_id = b.almacen_id))) :
    (l.filter (fun st => st.almacen_id == w && st.item_id == i)).length ≤ 1 := by
  induction l with
  | nil => simp
  | cons x xs ih =>
      rcases List.pairwise_cons.mp hpair with ⟨hx, hxs⟩
      by_cases hpx : (x.almacen_id == w && x.item_id == i) = true
      · rw [List.filter_cons, if_pos hpx]
        have hnil : xs.filter (fun st => st.almacen_id == w && st.item_id == i) = [] := by
          rw [List.filter_eq_nil_iff]
          intro a ha hpa
          simp only [Bool.and_eq_true, beq_iff_eq] at hpx hpa
          exact hx a ha ⟨by omega, by omega⟩
        simp [hnil]
      · rw [List.filter_cons, if_neg hpx]
        exact ih hxs

/-- With the uniqueness constraint, the `index` route's per-warehouse map
equals the sum of the matching stock rows' quantities. -/
theorem stock_map_eq_filter_sum (s : AppState) (w i : Nat)
    (hpair : s.stocks.Pairwise (fun a b => ¬(a.item_id = b.item_id ∧ a.almacen_id = b.almacen_id))) :
    stock_map_almacen s w i =
      ((s.stocks.filter (fun st => st.almacen_id == w && st.item_id == i)).map
        (·.cantidad)).sum := by
  have hlen := length_filter_le_one s.stocks w i hpair
  rcases hl : s.stocks.filter (fun st => st.almacen_id == w && st.item_id == i)
    with _ | ⟨x, _ | ⟨y, ys⟩⟩
  · simp [stock_map_almacen, hl]
  · simp [stock_map_almacen, hl]
  · exfalso
    rw [hl] at hlen
    simp at hlen

/-- Pointwise sums of integer-valued maps over a list. -/
theorem sum_map_add_int (L : List Almacen) (f g : Almacen → Int) :
    (L.map (fun a => f a + g a)).sum = (L.map f).sum + (L.map g).sum := by
  induction L with
  | nil => simp
  | cons x xs ih =>
      simp only [List.map_cons, List.sum_cons, ih]
      ring

/-- An indicator sum over warehouses vanishes when no warehouse carries the
id. -/
theorem sum_indicator_zero (L : List Almacen) (w : Nat) (c : Int)
    (h : ∀ a ∈ L, a.id ≠ w) :
    (L.map (fun a => if a.id = w then c else 0)).sum = 0 := by
  induction L with
  | nil => simp
  | cons x xs ih =>
      have hx : x.id ≠ w := h x (List.mem_cons_self x xs)
      rw [List.map_cons, List.sum_cons, if_neg hx,
        ih fun a ha => h a (List.mem_cons_of_mem x ha), add_zero]

/-- An indicator sum over warehouses with pairwise-distinct ids picks out
the unique warehouse carrying the id. -/
theorem sum_indicator_one (L : List Almacen) (w : Nat) (c : Int)
    (hnd : (L.map (·.id)).Nodup) (hw : ∃ a ∈ L, a.id = w) :
    (L.map (fun a => if a.id = w then c else 0)).sum = c := by
  induction L with
  | nil => simp at hw
  | cons x xs ih =>
      rw [List.map_cons, List.nodup_cons] at hnd
      by_cases hx : x.id = w
      · subst hx
        have hrest : ∀ a ∈ xs, a.id ≠ x.id := fun a ha he =>
          hnd.1 (he ▸ List.mem_map_of_mem (·.id) ha)
        rw [List.map_cons, List.sum_cons, if_pos rfl,
          sum_indicator_zero xs x.id c hrest, add_zero]
      · rcases hw with ⟨a, ha, rfl⟩
        have ha' : a ∈ xs := by
          rcases List.mem_cons.mp ha with rfl | h
          · exact absurd rfl hx
          · exact h
        rw [List.map_cons, List.sum_cons, if_neg hx, zero_add]
        exact ih hnd.2 ⟨a, ha', rfl⟩

/-- Exchange of summation: summing per-warehouse filtered totals over all
registered warehouses gives the unfiltered per-item total, provided every
stock row references a registered warehouse and warehouse ids are
distinct. -/
theorem sum_over_almacenes (A : List Almacen) (i : Nat)
    (hnd : (A.map (·.id)).Nodup) :
    ∀ l : List Stock, (∀ st ∈ l, ∃ a ∈ A, a.id = st.almacen_id) →
      (A.map (fun a =>
        ((l.filter (fun st => st.almacen_id == a.id && st.item_id == i)).map
          (·.cantidad)).sum)).sum =
      ((l.filter (fun st => st.item_id == i)).map (·.cantidad)).sum := by
  intro l
  induction l with
  | nil =>
      intro _
      simp
  | cons st l ih =>
      intro hfk
      have hl := ih fun x hx => hfk x (List.mem_cons_of_mem st hx)
      by_cases hit : (st.item_id == i) = true
      · have hstep : ∀ a ∈ A,
            (((st :: l).filter (fun x => x.almacen_id == a.id && x.item_id == i)).map
              (·.cantidad)).sum =
            (if a.id = st.almacen_id then st.cantidad else 0) +
              ((l.filter (fun x => x.almacen_id == a.id && x.item_id == i)).map
                (·.cantidad)).sum := by
          intro a _
          by_cases hpa : (st.almacen_id == a.id) = true
          · have hcond : (st.almacen_id == a.id && st.item_id == i) = true := by
              simp [hpa, hit]
            have haid : a.id = st.almacen_id := (beq_iff_eq.mp hpa).symm
            rw [List.filter_cons, if_pos hcond, List.map_cons, List.sum_cons,
              if_pos haid]
          · have hcond : ¬ (st.almacen_id == a.id && st.item_id == i) = true := by
              simp only [Bool.and_eq_true]
              exact fun h => hpa h.1
            have haid : ¬ a.id = st.almacen_id := fun he => hpa (by simp [he])
            rw [List.filter_cons, if_neg hcond, if_neg haid, zero_add]
        rw [List.map_congr_left hstep, sum_map_add_int, hl, List.filter_cons,
          if_pos hit, List.map_cons, List.sum_cons,
          sum_indicator_one A st.almacen_id st.cantidad hnd
            (hfk st (List.mem_cons_self st l))]
      · have hstep : ∀ a ∈ A,
            (((st :: l).filter (fun x => x.almacen_id == a.id && x.item_id == i)).map
              (·.cantidad)).sum =
            ((l.filter (fun x => x.almacen_id == a.id && x.item_id == i)).map
              (·.cantidad)).sum := by
          intro a _
          have hcond : ¬ (st.almacen_id == a.id && st.item_id == i) = true := by
            simp only [Bool.and_eq_true]
            exact fun h => hit h.2
          rw [List.filter_cons, if_neg hcond]
        rw [List.map_congr_left hstep, hl, List.filter_cons, if_neg hit]

/-- C5: for every state whose stock table satisfies the `(item, warehouse)`
uniqueness constraint and whose rows reference registered warehouses with
distinct ids, the consolidated total of an item equals the sum over all
warehouses of the per-warehouse totals (absent keys counted as zero). -/
theorem consolidado_decomposition (s : AppState) (item_id : Nat)
    (hpair : s.stocks.Pairwise
      (fun a b => ¬(a.item_id = b.item_id ∧ a.almacen_id = b.almacen_id)))
    (hfk : ∀ st ∈ s.stocks, ∃ a ∈ s.almacenes, a.id = st.almacen_id)
    (hnd : (s.almacenes.map (·.id)).Nodup) :
    _stock_consolidado_por_item s item_id =
      (s.almacenes.map (fun a => stock_map_almacen s a.id item_id)).sum := by
  rw [List.map_congr_left
    (fun a _ => stock_map_eq_filter_sum s a.id item_id hpair)]
  rw [sum_over_almacenes s.almacenes item_id hnd s.stocks hfk]
  rfl

/-- Instantiation of `consolidado_decomposition` on a two-warehouse state:
10 units at warehouse 1 plus 5 at warehouse 2 consolidate to 15. -/
theorem consolidado_decomposition_witness :
    _stock_consolidado_por_item
      { inventario := [⟨1, "Gloves", 0, "Consumible", 0⟩], almacenes := [⟨1, "W1"⟩, ⟨2, "W2"⟩], stocks := [⟨1, 1, 1, 10⟩, ⟨2, 1, 2, 5⟩], materiales := [], asignaciones := [], nextItemId := 2, nextStockId := 3, nextAsigId := 1 } 1 =
      (([⟨1, "W1"⟩, ⟨2, "W2"⟩] : List Almacen).map (fun a => stock_map_almacen
        { inventario := [⟨1, "Gloves", 0, "Consumible", 0⟩], almacenes := [⟨1, "W1"⟩, ⟨2, "W2"⟩], stocks := [⟨1, 1, 1, 10⟩, ⟨2, 1, 2, 5⟩], materiales := [], asignaciones := [], nextItemId := 2, nextStockId := 3, nextAsigId := 1 } a.id 1)).sum :=
  consolidado_decomposition _ 1 (by decide) (by decide) (by decide)

/-- Incrementing the (unique first) allocation row for `(m, i)` shifts the
per-item allocation sum by `q` at item `i` and nowhere else. -/
theorem sumAsig_updateFirst (asigs : List AsignacionItem) (m i : Nat) (q : Int)
    (a : AsignacionItem)
    (ha : asigs.find? (fun x => x.material_id == m && x.item_id == i) = some a)
    (j : Nat) :
    sumAsig (updateFirst (fun x => x.material_id == m && x.item_id == i)
      (fun x => { x with cantidad_asignada := x.cantidad_asignada + q }) asigs) j =
    sumAsig asigs j + (if i = j then q else 0) := by
  obtain ⟨l₁, l₂, hl, h1, hu, _⟩ := find?_decomp
    (fun x => x.material_id == m && x.item_id == i)
    (fun x => { x with cantidad_asignada := x.cantidad_asignada + q }) asigs a ha
  have hp : (a.material_id == m && a.item_id == i) = true :=
    List.find?_some
      (p := fun x : AsignacionItem => x.material_id == m && x.item_id == i) ha
  simp only [Bool.and_eq_true, beq_iff_eq] at hp
  rw [hu, hl, sumAsig_append, sumAsig_append, sumAsig_cons, sumAsig_cons]
  by_cases hij : i = j
  · subst hij
    simp [hp.2]
    ring
  · simp [hp.2, hij]

/-- Deleting the (first) allocation row found for `p` lowers the per-item
allocation sum by the row's quantity at its item and nowhere else. -/
theorem sumAsig_eraseFirst (asigs : List AsignacionItem)
    (p : AsignacionItem → Bool) (a : AsignacionItem)
    (ha : asigs.find? p = some a) (j : Nat) :
    sumAsig (eraseFirst p asigs) j =
      sumAsig asigs j - (if a.item_id = j then a.cantidad_asignada else 0) := by
  obtain ⟨l₁, l₂, hl, h1, _, he⟩ := find?_decomp p id asigs a ha
  rw [he, hl, sumAsig_append, sumAsig_append, sumAsig_cons]
  by_cases hij : a.item_id = j
  · simp [hij]
    ring
  · simp [hij]

/-- With non-negative allocation quantities, each live row's quantity is at
most the allocation sum of its item. -/
theorem le_sumAsig (asigs : List AsignacionItem) (a : AsignacionItem)
    (ha : a ∈ asigs) (hnn : ∀ x ∈ asigs, 0 ≤ x.cantidad_asignada) :
    a.cantidad_asignada ≤ sumAsig asigs a.item_id := by
  unfold sumAsig
  have hmem : a.cantidad_asignada ∈
      (asigs.filter (fun x => x.item_id == a.item_id)).map (·.cantidad_asignada) :=
    List.mem_map_of_mem _ (List.mem_filter.mpr ⟨ha, by simp⟩)
  refine List.single_le_sum ?_ _ hmem
  intro x hx
  rcases List.mem_map.mp hx with ⟨b, hb, rfl⟩
  exact hnn b (List.mem_filter.mp hb).1

/-- `updateFirst` with an id-preserving update leaves the id column
unchanged. -/
theorem map_id_updateFirst (inv : List Inventario) (p : Inventario → Bool)
    (f : Inventario → Inventario) (hf : ∀ x, (f x).id = x.id) :
    (updateFirst p f inv).map (·.id) = inv.map (·.id) := by
  induction inv with
  | nil => rfl
  | cons x xs ih =>
      by_cases hx : p x = true
      · simp [updateFirst, hx, hf]
      · simp [updateFirst, hx, ih]

/-- Core step for the demand invariant: if every item's demand matches the
sum function `S`, the sums move from `S` to `S'` only at item id `i`, and
the update applied to the (unique) item `i` turns `S i` into `S' i`, then
after applying the handlers' `updateFirst` on the catalog every item
matches `S'`. -/
theorem demandInv_updateFirst (inv : List Inventario) (S T : Nat → Int)
    (i : Nat) (f : Int → Int)
    (hnd : (inv.map (·.id)).Nodup)
    (hold : ∀ it ∈ inv, it.consumo_estimado = S it.id)
    (hsame : ∀ j, j ≠ i → T j = S j)
    (hupd : f (S i) = T i) :
    ∀ it' ∈ updateFirst (fun x => x.id == i)
      (fun x => { x with consumo_estimado := f x.consumo_estimado }) inv,
      it'.consumo_estimado = T it'.id := by
  rcases hfind0 : inv.find? (fun x => x.id == i) with _ | it0
  · rw [updateFirst_of_forall_neg _ _ _ fun x hx =>
      (List.find?_eq_none.mp hfind0) x hx]
    intro it' hit'
    have hne : it'.id ≠ i := by
      have := List.find?_eq_none.mp hfind0 it' hit'
      simpa using this
    rw [hold it' hit', hsame it'.id hne]
  · obtain ⟨i₁, i₂, hl, h1, hu, _⟩ := find?_decomp (fun x => x.id == i)
      (fun x => { x with consumo_estimado := f x.consumo_estimado }) inv it0 hfind0
    have hp0 : it0.id = i := by
      have := List.find?_some (p := fun x : Inventario => x.id == i) hfind0
      simpa using this
    intro it' hit'
    rw [hu] at hit'
    simp only [List.mem_append, List.mem_cons] at hit'
    rcases hit' with h | h | h
    · have hne : it'.id ≠ i := by
        have := h1 it' h
        simpa using this
      have hmem : it' ∈ inv := by
        rw [hl]
        exact List.mem_append_left _ h
      rw [hold it' hmem, hsame it'.id hne]
    · subst h
      have hmem : it0 ∈ inv := by
        rw [hl]
        exact List.mem_append_right _ (List.mem_cons_self _ _)
      show f it0.consumo_estimado = T it0.id
      rw [hold it0 hmem, hp0, hupd]
    · have hne : it'.id ≠ i := by
        have hnd' : ((i₁ ++ it0 :: i₂).map (·.id)).Nodup := by
          rw [← hl]
          exact hnd
        have h2 : ((i₁.map (·.id)) ++ (it0.id :: i₂.map (·.id))).Nodup := by
          simpa using hnd'
        rcases List.nodup_cons.mp h2.of_append_right with ⟨hni, -⟩
        intro he
        exact hni (by rw [hp0, ← he]; exact List.mem_map_of_mem (·.id) h)
      have hmem : it' ∈ inv := by
        rw [hl]
        exact List.mem_append_right _ (List.mem_cons_of_mem _ h)
      rw [hold it' hmem, hsame it'.id hne]

/-- Elements of `eraseFirst p l` come from `l`. -/
theorem mem_of_mem_eraseFirst (p : α → Bool) (l : List α) (x : α)
    (hx : x ∈ eraseFirst p l) : x ∈ l := by
  induction l with
  | nil => simp [eraseFirst] at hx
  | cons y ys ih =>
      simp only [eraseFirst] at hx
      by_cases hy : p y = true
      · rw [if_pos hy] at hx
        exact List.mem_cons_of_mem _ hx
      · rw [if_neg hy] at hx
        rcases List.mem_cons.mp hx with rfl | h
        · exact List.mem_cons_self _ _
        · exact List.mem_cons_of_mem _ (ih h)

/-- A successful or failed `asignar_items` call with a non-negative
quantity preserves consistency. -/
theorem asignar_preserves (s : AppState) (m i : Nat) (q : Int) (hq : 0 ≤ q)
    (hc : Consistent s) : Consistent (applyOp s (LedgerOp.alloc m i q)) := by
  obtain ⟨hinv, hnd, hnn⟩ := hc
  rcases hfind : s.asignaciones.find? (fun x => x.material_id == m && x.item_id == i)
    with _ | a
  · by_cases hex : (s.inventario.any (fun it => it.id == i) &&
        s.materiales.any (fun x => x.id == m)) = true
    · have heq : asignar_items s m i q =
          Except.ok { s with asignaciones := s.asignaciones ++ [⟨s.nextAsigId, m, i, q⟩], nextAsigId := s.nextAsigId + 1, inventario := updateFirst (fun x => x.id == i) (fun x => { x with consumo_estimado := x.consumo_estimado + q }) s.inventario } := by
        simp [asignar_items, hfind, hex]
      simp only [applyOp, heq]
      have hsum : ∀ j, sumAsig (s.asignaciones ++ [(⟨s.nextAsigId, m, i, q⟩ : AsignacionItem)]) j =
          sumAsig s.asignaciones j + (if i = j then q else 0) := by
        intro j
        rw [sumAsig_append, sumAsig_cons]
        have hnil : sumAsig [] j = 0 := rfl
        rw [hnil]
        by_cases h : i = j
        · subst h
          simp
        · simp [h]
      have h1 := demandInv_updateFirst s.inventario (sumAsig s.asignaciones)
        (sumAsig (s.asignaciones ++ [(⟨s.nextAsigId, m, i, q⟩ : AsignacionItem)]))
        i (· + q) hnd hinv
        (fun j hji => by rw [hsum j, if_neg fun h => hji h.symm, add_zero])
        (by
          show sumAsig s.asignaciones i + q = _
          rw [hsum i, if_pos rfl])
      have h2 : ((updateFirst (fun x => x.id == i)
          (fun x => { x with consumo_estimado := x.consumo_estimado + q })
          s.inventario).map (·.id)).Nodup := by
        rw [map_id_updateFirst s.inventario (fun x => x.id == i)
          (fun x => { x with consumo_estimado := x.consumo_estimado + q }) fun x => rfl]
        exact hnd
      have h3 : ∀ x ∈ s.asignaciones ++ [(⟨s.nextAsigId, m, i, q⟩ : AsignacionItem)],
          0 ≤ x.cantidad_asignada := by
        intro x hx
        rcases List.mem_append.mp hx with h | h
        · exact hnn x h
        · rcases List.mem_singleton.mp h with rfl
          exact hq
      exact ⟨h1, h2, h3⟩
    · have heq : asignar_items s m i q = Except.error Err.fkViolation := by
        simp [asignar_items, hfind, hex]
      simp only [applyOp, heq]
      exact ⟨hinv, hnd, hnn⟩
  · have heq : asignar_items s m i q =
        Except.ok { s with asignaciones := updateFirst (fun x => x.material_id == m && x.item_id == i) (fun x => { x with cantidad_asignada := x.cantidad_asignada + q }) s.asignaciones, inventario := updateFirst (fun x => x.id == i) (fun x => { x with consumo_estimado := x.consumo_estimado + q }) s.inventario } := by
      simp [asignar_items, hfind]
    simp only [applyOp, heq]
    have hamem : a ∈ s.asignaciones := List.mem_of_find?_eq_some hfind
    have hsum := sumAsig_updateFirst s.asignaciones m i q a hfind
    have h1 := demandInv_updateFirst s.inventario (sumAsig s.asignaciones)
      (sumAsig (updateFirst
        (fun x => x.material_id == m && x.item_id == i)
        (fun x => { x with cantidad_asignada := x.cantidad_asignada + q })
        s.asignaciones))
      i (· + q) hnd hinv
      (fun j hji => by rw [hsum j, if_neg fun h => hji h.symm, add_zero])
      (by
        show sumAsig s.asignaciones i + q = _
        rw [hsum i, if_pos rfl])
    have h2 : ((updateFirst (fun x => x.id == i)
        (fun x => { x with consumo_estimado := x.consumo_estimado + q })
        s.inventario).map (·.id)).Nodup := by
      rw [map_id_updateFirst s.inventario (fun x => x.id == i)
        (fun x => { x with consumo_estimado := x.consumo_estimado + q }) fun x => rfl]
      exact hnd
    have h3 : ∀ x ∈ updateFirst (fun x => x.material_id == m && x.item_id == i)
        (fun x => { x with cantidad_asignada := x.cantidad_asignada + q })
        s.asignaciones, 0 ≤ x.cantidad_asignada := by
      obtain ⟨l₁, l₂, hl, -, hu, -⟩ := find?_decomp
        (fun x => x.material_id == m && x.item_id == i)
        (fun x => { x with cantidad_asignada := x.cantidad_asignada + q })
        s.asignaciones a hfind
      intro x hx
      rw [hu] at hx
      simp only [List.mem_append, List.mem_cons] at hx
      rcases hx with h | h | h
      · exact hnn x (by rw [hl]; exact List.mem_append_left _ h)
      · subst h
        have := hnn a hamem
        show 0 ≤ a.cantidad_asignada + q
        omega
      · exact hnn x (by rw [hl]; exact List.mem_append_right _ (List.mem_cons_of_mem _ h))
    exact ⟨h1, h2, h3⟩

/-- An `eliminar_asignacion` call (successful or 404) preserves
consistency: the clamp never fires from a consistent state because the
deleted row's quantity is at most the item's allocation sum. -/
theorem eliminar_preserves (s : AppState) (aid : Nat) (hc : Consistent s) :
    Consistent (applyOp s (LedgerOp.dealloc aid)) := by
  obtain ⟨hinv, hnd, hnn⟩ := hc
  rcases hfind : s.asignaciones.find? (fun x => x.id == aid) with _ | a
  · have heq : eliminar_asignacion s aid = Except.error Err.notFound := by
      simp [eliminar_asignacion, hfind]
    simp only [applyOp, heq]
    exact ⟨hinv, hnd, hnn⟩
  · have heq : eliminar_asignacion s aid =
        Except.ok { s with inventario := updateFirst (fun x => x.id == a.item_id) (fun x => { x with consumo_estimado := max 0 (x.consumo_estimado - a.cantidad_asignada) }) s.inventario, asignaciones := eraseFirst (fun x => x.id == aid) s.asignaciones } := by
      simp [eliminar_asignacion, hfind]
    simp only [applyOp, heq]
    have hamem : a ∈ s.asignaciones := List.mem_of_find?_eq_some hfind
    have hsum := sumAsig_eraseFirst s.asignaciones (fun x => x.id == aid) a hfind
    have hble := le_sumAsig s.asignaciones a hamem hnn
    have h1 := demandInv_updateFirst s.inventario (sumAsig s.asignaciones)
      (sumAsig (eraseFirst (fun x => x.id == aid) s.asignaciones))
      a.item_id (fun x => max 0 (x - a.cantidad_asignada)) hnd hinv
      (fun j hji => by rw [hsum j, if_neg fun h => hji h.symm, sub_zero])
      (by
        show max 0 (sumAsig s.asignaciones a.item_id - a.cantidad_asignada) = _
        rw [hsum a.item_id, if_pos rfl]
        rw [max_eq_right (by omega)])
    have h2 : ((updateFirst (fun x => x.id == a.item_id)
        (fun x => { x with consumo_estimado := max 0 (x.consumo_estimado - a.cantidad_asignada) })
        s.inventario).map (·.id)).Nodup := by
      rw [map_id_updateFirst s.inventario (fun x => x.id == a.item_id)
        (fun x => { x with consumo_estimado := max 0 (x.consumo_estimado - a.cantidad_asignada) }) fun x => rfl]
      exact hnd
    have h3 : ∀ x ∈ eraseFirst (fun x => x.id == aid) s.asignaciones,
        0 ≤ x.cantidad_asignada := fun x hx =>
      hnn x (mem_of_mem_eraseFirst _ _ x hx)
    exact ⟨h1, h2, h3⟩

/-- Any interleaving of allocate calls with non-negative quantities and
deallocate calls preserves consistency. -/
theorem runOps_consistent (ops : List LedgerOp) : ∀ s : AppState, Consistent s →
    (∀ op ∈ ops, opNonneg op) → Consistent (runOps s ops) := by
  induction ops with
  | nil =>
      intro s hs _
      exact hs
  | cons op ops ih =>
      intro s hs hops
      show Consistent (runOps (applyOp s op) ops)
      refine ih (applyOp s op) ?_ fun o ho => hops o (List.mem_cons_of_mem _ ho)
      rcases op with ⟨m, i, q⟩ | aid
      · exact asignar_preserves s m i q (hops _ (List.mem_cons_self _ _)) hs
      · exact eliminar_preserves s aid hs

/-- C1 (amended): from a consistent initial state, every interleaving of
allocate and deallocate calls in which each allocate passes a
non-negative quantity re-establishes the cross-entity demand invariant:
each item's `consumo_estimado` equals the sum of `cantidad_asignada` over
the live allocations referencing it. -/
theorem demand_invariant (s : AppState) (ops : List LedgerOp)
    (hs : Consistent s) (hops : ∀ op ∈ ops, opNonneg op) :
    demandInv (runOps s ops) :=
  (runOps_consistent ops s hs hops).1

/-- C1 counterexample: from the consistent state `stateC1`, the call
sequence allocate(M1, I1, 5); allocate(M2, I1, −10); deallocate(row 1)
breaks the invariant — the clamp in deallocate sets the demand to 0 while
the surviving allocation row sums to −10.  (Negative quantities are
accepted because `asignar_items` never validates them.) -/
theorem demand_invariant_counterexample :
    Consistent stateC1 ∧
      ¬ demandInv (runOps stateC1
        [LedgerOp.alloc 1 1 5, LedgerOp.alloc 2 1 (-10), LedgerOp.dealloc 1]) := by
  decide

/-- Instantiation of `demand_invariant`: allocate 5 then deallocate it
leaves the invariant intact on `stateC1`. -/
theorem demand_invariant_witness :
    demandInv (runOps stateC1 [LedgerOp.alloc 1 1 5, LedgerOp.dealloc 1]) :=
  demand_invariant stateC1 [LedgerOp.alloc 1 1 5, LedgerOp.dealloc 1]
    (by decide) (by decide)

/-- The rows produced by the `requerimientos` loop are exactly the
qualifying items mapped through the spec-side row builder. -/
theorem reqRows_eq (s : AppState) : ∀ l : List Inventario,
    (l.filterMap (fun it =>
      if it.consumo_estimado > 0 ∨ max 0 (it.consumo_estimado - _stock_consolidado_por_item s it.id) > 0 then
        some (⟨it.id, it.nombre, it.categoria, _stock_consolidado_por_item s it.id, it.consumo_estimado, max 0 (it.consumo_estimado - _stock_consolidado_por_item s it.id), _semaforo (_stock_consolidado_por_item s it.id) it.consumo_estimado⟩ : ReqRow)
      else none)) =
    (l.filter (reqQualifies s)).map (mkReqRow s) := by
  intro l
  induction l with
  | nil => rfl
  | cons x xs ih =>
      by_cases hx : x.consumo_estimado > 0 ∨
          max 0 (x.consumo_estimado - _stock_consolidado_por_item s x.id) > 0
      · have hq : reqQualifies s x = true := by
          simp only [reqQualifies, Bool.or_eq_true, decide_eq_true_eq]
          exact hx
        simp only [List.filterMap_cons, List.filter_cons]
        rw [if_pos hx, if_pos hq, ih]
        rfl
      · have hq : ¬ reqQualifies s x = true := by
          simp only [reqQualifies, Bool.or_eq_true, decide_eq_true_eq]
          exact hx
        simp only [List.filterMap_cons, List.filter_cons]
        rw [if_neg hx, if_neg hq, ih]

/-- C4: the requirement report contains exactly the items with positive
estimated demand or positive shortfall (so an item with zero demand and
zero on-hand never appears), each rendered with `on_hand` the consolidated
total (0 when absent), `shortfall = max 0 (demand − on_hand)` and
`status = classify(on_hand, demand)`; and the report is pairwise ordered
by severity rank ascending (ROJO 0 < AMARILLO 1 < VERDE 2), and within
equal rank by shortfall descending. -/
theorem requerimientos_spec (s : AppState) :
    (requerimientos s).Perm ((s.inventario.filter (reqQualifies s)).map (mkReqRow s)) ∧
    (∀ r ∈ requerimientos s, 0 < r.estimado ∨ 0 < r.faltante) ∧
    List.Pairwise (fun a b => prioridad a.semaforo < prioridad b.semaforo ∨
      (prioridad a.semaforo = prioridad b.semaforo ∧ b.faltante ≤ a.faltante))
      (requerimientos s) := by
  have htrans : ∀ a b c : ReqRow, reqLe a b → reqLe b c → reqLe a c := by
    intro a b c
    simp only [reqLe, Bool.or_eq_true, Bool.and_eq_true, decide_eq_true_eq, beq_iff_eq]
    omega
  have htotal : ∀ a b : ReqRow, reqLe a b || reqLe b a := by
    intro a b
    simp only [reqLe, Bool.or_eq_true, Bool.and_eq_true, decide_eq_true_eq, beq_iff_eq]
    omega
  have hperm : (requerimientos s).Perm
      ((s.inventario.filter (reqQualifies s)).map (mkReqRow s)) := by
    simp only [requerimientos]
    rw [reqRows_eq s s.inventario]
    exact List.mergeSort_perm _ reqLe
  have hsorted : List.Pairwise (fun a b : ReqRow => reqLe a b = true)
      (requerimientos s) := by
    simp only [requerimientos]
    exact List.sorted_mergeSort htrans htotal _
  refine ⟨hperm, ?_, ?_⟩
  · intro r hr
    have hr' := hperm.mem_iff.mp hr
    rcases List.mem_map.mp hr' with ⟨it, hit, rfl⟩
    have hq := List.of_mem_filter hit
    simp only [reqQualifies, Bool.or_eq_true, decide_eq_true_eq] at hq
    exact hq
  · exact hsorted.imp fun hab => by
      simpa only [reqLe, Bool.or_eq_true, Bool.and_eq_true, decide_eq_true_eq,
        beq_iff_eq] using hab

end BridgesOps
